import Mathlib

/-
Verification of the research-result caching and normalization pipeline of
the simplified_TSAT repository.  Text is modelled as `List Char`; Python
string operations (`lower`, `strip`, `split`, substring containment) are
embedded as executable functions on character lists.  The three researcher
variants are modelled separately where their code differs:
`tool_researcher.py` at the repository root ("root"), and
`core/tool_researcher.py` ("core") and `core/tool_researcher_final.py`
("final") under core/.
-/

set_option maxRecDepth 4096

abbrev Str := List Char

/-- Python default whitespace characters, as tested by `str.strip()`. -/

def isPyWs (c : Char) : Bool :=
  c = ' ' || c = '\t' || c = '\n' || c = '\r' || c = '\x0b' || c = '\x0c'

/-- Python `str.lower()` (ASCII letters; sufficient for this code base). -/

def pyLower (s : Str) : Str := s.map Char.toLower

/-- Python `str.strip()` with no argument: drop whitespace at both ends. -/

def pyStrip (s : Str) : Str :=
  ((s.dropWhile isPyWs).reverse.dropWhile isPyWs).reverse

/-- Python `str.replace(' ', '_')`: every space becomes an underscore. -/

def pyReplaceSpace (s : Str) : Str :=
  s.map (fun c => if c = ' ' then '_' else c)

/-- Locate the first occurrence of `d` in `s`, returning the text before the
occurrence and the text after it (Python substring search). -/

def splitFirst (d : Str) : Str → Option (Str × Str)
  | [] => if d.isPrefixOf ([] : Str) then some ([], []) else none
  | c :: rest =>
    if d.isPrefixOf (c :: rest) then some ([], (c :: rest).drop d.length)
    else (splitFirst d rest).map (fun p => (c :: p.1, p.2))

/-- Python `in` on strings: `d` occurs as a substring of `s`. -/

def containsSub (d s : Str) : Bool := (splitFirst d s).isSome

/-- Fuelled worker for `splitOnSub`; the fuel bounds the number of
occurrences and keeps the recursion structural, so terms evaluate inside
the kernel. -/

def splitOnAux (d : Str) : Nat → Str → List Str
  | 0, s => [s]
  | fuel + 1, s =>
    match splitFirst d s with
    | none => [s]
    | some (a, b) => a :: splitOnAux d fuel b

/-- Python `str.split(d)` for a non-empty separator `d` (an empty separator
is rejected by Python; modelled here as no split). -/

def splitOnSub (d s : Str) : List Str :=
  if d = [] then [s] else splitOnAux d s.length s

/-- Python `str.split('\n')`. -/

def splitLines (s : Str) : List Str := splitOnSub ['\n'] s

/-- The fixed negative-result markers of `_parse_agent_output`. -/

def noUpdatesMarkers : List Str :=
  [ "no public updates found".toList
  , "no updates found".toList
  , "could not find".toList
  , "no information available".toList
  , "no public changelog".toList
  , "no verifiable updates".toList ]

/-- The negative-result short-circuit test: some marker occurs in the
lowercased output text. -/

def hasNoUpdatesMarker (t : Str) : Bool :=
  noUpdatesMarkers.any (fun p => containsSub p (pyLower t))

/-- One structured update record, as built by `_parse_agent_output`
(a Python dict whose keys are set only when a matching line was seen). -/

structure Update where
  feature_name : Option Str := none
  release_date : Option Str := none
  source_url : Option Str := none
  description : Option Str := none
  automation_value : Option Str := none
deriving DecidableEq, Repr

def emptyUpdate : Update := {}

/-- Process one `key: value` pair of a section line: lowercase the stripped
key and route the stripped value by substring containment, in the order of
the source's if/elif chain. -/

def applyKV (u : Update) (k v : Str) : Update :=
  let key := pyLower (pyStrip k)
  let val := pyStrip v
  if containsSub "feature".toList key || containsSub "name".toList key then
    { u with feature_name := some val }
  else if containsSub "date".toList key || containsSub "released".toList key then
    { u with release_date := some val }
  else if containsSub "url".toList key || containsSub "source".toList key then
    { u with source_url := some val }
  else if containsSub "description".toList key then
    { u with description := some val }
  else if containsSub "automation".toList key || containsSub "value".toList key then
    { u with automation_value := some val }
  else u

/-- Process one line of a section: strip it, skip it when empty or
colon-free, otherwise split at the first colon and route the pair. -/

def applyLine (u : Update) (line : Str) : Update :=
  let l := pyStrip line
  if l = [] then u
  else
    match splitFirst [':'] l with
    | none => u
    | some (k, v) => applyKV u k v

/-- A section yields a record only when its accumulated `feature_name` is a
non-empty string (Python dict truthiness of `update.get('feature_name')`). -/

def featureTruthy (u : Update) : Bool :=
  match u.feature_name with
  | some v => !v.isEmpty
  | none => false

/-- Convert one candidate section into at most one update record, mirroring
the per-section loop of `_parse_agent_output`. -/

def sectionRecord (s : Str) : Option Update :=
  if (pyStrip s).isEmpty then none
  else
    let u := (splitLines s).foldl applyLine emptyUpdate
    if featureTruthy u then some u else none

/-- The per-section extraction loop over a list of candidate sections. -/

def extractUpdates (ss : List Str) : List Update :=
  ss.filterMap sectionRecord

/-- The section delimiter the parser splits on: the three-character
substring of hyphens. -/

def hyphenDelim : Str := "---".toList

/-- `_parse_agent_output` of core/tool_researcher_final.py: negative-marker
short-circuit, then split on every occurrence of `---` and extract
records. -/

def parseAgentOutputFinal (t : Str) : List Update :=
  if hasNoUpdatesMarker t then []
  else extractUpdates (splitOnSub hyphenDelim t)

/-- `_parse_agent_output` of tool_researcher.py (root): same as the final
variant, except that when structured parsing yields no records a second
crew pass tries to restructure the text as JSON; that opaque pass (crew
invocation plus `json.loads`, all failures swallowed) is the parameter
`fb`, whose empty result leaves the empty list in place. -/

def parseAgentOutputRoot (fb : Str → List Update) (t : Str) : List Update :=
  if hasNoUpdatesMarker t then []
  else
    let u := extractUpdates (splitOnSub hyphenDelim t)
    if u = [] then fb t else u

/-- A research result, the unit of caching: a Python dict whose keys are
present or absent.  Optional fields model keys that some code paths omit;
`success` is the Bool consulted through `.get('success')` truthiness. -/

structure ResultDict where
  success : Bool
  source : Option Str := none
  tool_name : Option Str := none
  tool_type : Option Str := none
  date_range : Option Str := none
  research_depth : Option Str := none
  updates : Option (List Update) := none
  updates_found : Option (List Update) := none
  raw_output : Option Str := none
  timestamp : Option Int := none
  error : Option Str := none
  needs_setup : Option Bool := none
  endpoint : Option Str := none
  note : Option Str := none
deriving DecidableEq, Repr

/-- Modelled from the spec: the endpoint registry descriptor.  The module
core/api_changelog_registry.py (class APIChangelogRegistry) is imported by
the researchers but is not under src/; spec section 4.2 describes it as a
read-only static table mapping a tool name to a descriptor with an
endpoint URL-or-absent and an auth_required flag. -/

structure EndpointInfo where
  endpoint : Option Str
  auth_required : Bool
deriving DecidableEq

/-- Modelled from the spec: the registry as a static lookup table. -/

abbrev Registry := Str → Option EndpointInfo

/-- Modelled from the spec: hasEndpoint is true iff the static table
contains a match for the tool name. -/

def has_api_endpoint (reg : Registry) (tool_name : Str) : Bool :=
  (reg tool_name).isSome

/-- Modelled from the spec: getEndpoint returns the descriptor or absent. -/

def get_endpoint (reg : Registry) (tool_name : Str) : Option EndpointInfo :=
  reg tool_name

/-- Python dict-value truthiness of an optional string: present and
non-empty. -/

def strOptTruthy (o : Option Str) : Bool :=
  match o with
  | none => false
  | some s => !s.isEmpty

/-- `_research_via_api` of core/tool_researcher.py (identical in the root
variant): absent descriptor or falsy endpoint fails outright, an
auth-required descriptor fails with needs_setup, otherwise a placeholder
success referencing the endpoint is produced. -/

def research_via_api (reg : Registry) (tool_name : Str) : ResultDict :=
  match get_endpoint reg tool_name with
  | none => { success := false, error := some "No API endpoint available".toList }
  | some info =>
    if !strOptTruthy info.endpoint then
      { success := false, error := some "No API endpoint available".toList }
    else if info.auth_required then
      { success := false
      , error := some "Authentication required but credentials not configured".toList
      , needs_setup := some true }
    else
      { success := true
      , source := some "api".toList
      , tool_name := some tool_name
      , endpoint := info.endpoint
      , updates_found := some []
      , note := some "API integration not yet implemented - use web research".toList }

/-- One persisted cache file of tool_researcher.py (root variant), as
written by its `_save_cache`.  A missing or unreadable (corrupt) file is a
`none` in the store, matching the swallowed read errors. -/

structure RootEntry where
  cached_at : Int
  tool_name : Str
  date_range : Str × Str
  results : ResultDict
deriving DecidableEq

abbrev RootStore := Str → Option RootEntry

/-- Root cache key: lowercased name with spaces replaced by underscores,
then the two dates appended with underscore separators. -/

def rootCacheKey (tool_name : Str) (dr : Str × Str) : Str :=
  pyReplaceSpace (pyLower tool_name) ++ ('_' :: dr.1) ++ ('_' :: dr.2)

/-- `_load_cache` of tool_researcher.py (root): read the file at the key
and return its results when the entry is younger than the freshness
window.  Timestamps are integers; the window is `cache_duration`. -/

def rootLoadCache (store : RootStore) (tool_name : Str) (dr : Str × Str)
    (now win : Int) : Option ResultDict :=
  match store (rootCacheKey tool_name dr) with
  | none => none
  | some e => if now - e.cached_at < win then some e.results else none

/-- `_save_cache` of tool_researcher.py (root): overwrite the entry at the
key with the result stamped at the current time. -/

def rootSaveCache (store : RootStore) (tool_name : Str) (dr : Str × Str)
    (res : ResultDict) (now : Int) : RootStore :=
  fun k =>
    if k = rootCacheKey tool_name dr then
      some { cached_at := now, tool_name := tool_name, date_range := dr, results := res }
    else store k

/-- `_normalize_tool_name` of core/tool_researcher.py: lower, strip,
replace spaces with underscores.  The date range is not part of the key. -/

def coreNormalizeToolName (tool_name : Str) : Str :=
  pyReplaceSpace (pyStrip (pyLower tool_name))

/-- One persisted cache file of core/tool_researcher.py, as written by its
`_save_cache` (the stored date_range list is modelled as the pair). -/

structure CoreEntry where
  tool_name : Str
  date_range : Str × Str
  cached_at : Int
  results : ResultDict
deriving DecidableEq

abbrev CoreStore := Str → Option CoreEntry

/-- `_load_cache` of core/tool_researcher.py: read the per-tool file and
return its results only when the entry is fresh and its stored date range
equals the requested one. -/

def coreLoadCache (store : CoreStore) (tool_name : Str) (dr : Str × Str)
    (now win : Int) : Option ResultDict :=
  match store (coreNormalizeToolName tool_name) with
  | none => none
  | some e =>
    if now - e.cached_at < win then
      if e.date_range = dr then some e.results else none
    else none

/-- `_save_cache` of core/tool_researcher.py: overwrite the single
per-tool entry. -/

def coreSaveCache (store : CoreStore) (tool_name : Str) (dr : Str × Str)
    (res : ResultDict) (now : Int) : CoreStore :=
  fun k =>
    if k = coreNormalizeToolName tool_name then
      some { tool_name := tool_name, date_range := dr, cached_at := now, results := res }
    else store k

/-- One persisted cache file of core/tool_researcher_final.py, as written
by its `_save_to_cache`. -/

structure FinalEntry where
  cached_at : Int
  cache_key : Str
  results : ResultDict
deriving DecidableEq

abbrev FinalStore := Str → Option FinalEntry

/-- `_check_cache` of core/tool_researcher_final.py: return the whole
cached record when it exists and is younger than the freshness window. -/

def finalCheckCache (store : FinalStore) (cache_key : Str)
    (now win : Int) : Option FinalEntry :=
  match store cache_key with
  | none => none
  | some e => if now - e.cached_at < win then some e else none

/-- A JSON object as parsed from the agent output of core
`_research_via_web`: the fields the code consults, each possibly absent. -/

structure JDict where
  success : Option Bool := none
  tool_name : Option Str := none
  source : Option Str := none
  updates : Option (List Update) := none
  error : Option Str := none
deriving DecidableEq

/-- Outcome of the JSON extraction step of core `_research_via_web`: the
composite of Python stdlib `re.search` over the raw crew output (grabbing
the first opening brace through the last closing brace) and `json.loads`.
`noMatch`: the pattern found nothing; `decodeErr`: loads raised
JSONDecodeError with the given message; `nonDictFault`: loads produced a
non-dict value, so the subsequent required-field writes raise and the
outer handler catches an exception with the given message; `dict`: loads
produced a JSON object. -/

inductive JExtract where
  | noMatch
  | decodeErr (msg : Str)
  | nonDictFault (msg : Str)
  | dict (d : JDict)
deriving DecidableEq

/-- The ensure-required-fields step of core `_research_via_web`: default
success to true, tool_name to the researched tool, source to
web_research, updates to the empty list; the error key is left as-is. -/

def ensureRequiredFields (tool_name : Str) (d : JDict) : ResultDict :=
  { success := d.success.getD true
  , tool_name := some (d.tool_name.getD tool_name)
  , source := some (d.source.getD "web_research".toList)
  , updates := some (d.updates.getD [])
  , error := d.error }

/-- `_research_via_web` of core/tool_researcher.py.  `cap` is the opaque
crew invocation: either the raw output text or a raised exception's
message; `jx` is the JSON extraction step applied to the output text. -/

def research_via_web_core (cap : Except Str Str) (jx : Str → JExtract)
    (tool_name : Str) : ResultDict :=
  match cap with
  | .error e =>
    { success := false
    , tool_name := some tool_name
    , source := some "web_research".toList
    , error := some e
    , updates := some [] }
  | .ok out =>
    match jx out with
    | .noMatch =>
      ensureRequiredFields tool_name
        { success := some false
        , error := some "Could not parse result as JSON".toList }
    | .decodeErr m =>
      { success := false
      , tool_name := some tool_name
      , source := some "web_research".toList
      , error := some ("JSON parse error: ".toList ++ m)
      , raw_output := some (out.take 500) }
    | .nonDictFault m =>
      { success := false
      , tool_name := some tool_name
      , source := some "web_research".toList
      , error := some m
      , updates := some [] }
    | .dict d => ensureRequiredFields tool_name d

/-- `_research_via_web` of tool_researcher.py (root).  `cap` is the crew
invocation outcome; `fb` is the opaque second-pass restructuring used by
the root parser when structured parsing yields nothing. -/

def research_via_web_root (cap : Except Str Str) (fb : Str → List Update)
    (tool_name tool_type start_date end_date research_depth : Str)
    (now : Int) : ResultDict :=
  match cap with
  | .ok text =>
    { success := true
    , source := some "web_search".toList
    , tool_name := some tool_name
    , tool_type := some tool_type
    , date_range := some (start_date ++ " to ".toList ++ end_date)
    , research_depth := some research_depth
    , updates := some (parseAgentOutputRoot fb text)
    , raw_output := some text
    , timestamp := some now }
  | .error e =>
    { success := false
    , error := some e
    , tool_name := some tool_name
    , updates := some [] }

/-- `research_tool_updates` of core/tool_researcher.py: cache check, then
registry check with the API branch (only a successful API result is
terminal), then web research; every result produced past the cache hit is
written to the cache before returning.  A cache hit is modelled by the
`some` branch of the load (the Python truthiness test on the returned
dict). -/

def research_tool_updates_core (reg : Registry) (cap : Except Str Str)
    (jx : Str → JExtract) (store : CoreStore) (now win : Int)
    (tool_name start_date end_date : Str) : ResultDict × CoreStore :=
  let dr := (start_date, end_date)
  match coreLoadCache store tool_name dr now win with
  | some cached => (cached, store)
  | none =>
    if has_api_endpoint reg tool_name then
      let api := research_via_api reg tool_name
      if api.success then (api, coreSaveCache store tool_name dr api now)
      else
        let w := research_via_web_core cap jx tool_name
        (w, coreSaveCache store tool_name dr w now)
    else
      let w := research_via_web_core cap jx tool_name
      (w, coreSaveCache store tool_name dr w now)

/-- The failure entry `research_tool_stack` records when researching one
tool raises: success false and the exception's message, no updates key. -/

def toolFaultEntry (e : Str) : ResultDict :=
  { success := false, error := some e }

/-- Python dict assignment `results[k] = v` on an association list whose
keys are unique: replace in place when the key exists, otherwise append
(insertion order is preserved). -/

def dictInsert : List (Str × ResultDict) → Str → ResultDict →
    List (Str × ResultDict)
  | [], k, v => [(k, v)]
  | p :: rest, k, v =>
    if p.1 = k then (k, v) :: rest else p :: dictInsert rest k v

/-- Python dict read `results.get(k)`. -/

def dictLookup (k : Str) : List (Str × ResultDict) → Option ResultDict
  | [] => none
  | p :: rest => if p.1 = k then some p.2 else dictLookup k rest

/-- The aggregate of `research_tool_stack`. -/

structure StackResult where
  total_tools : Nat
  successful : Nat
  failed : Nat
  results : List (Str × ResultDict)
  date_range : Str
  timestamp : Int
deriving DecidableEq

/-- The per-tool loop of `research_tool_stack`: each tool's extracted name
and type drive one research call (`step`), whose raised exception is
caught and recorded as a fault entry; the result lands in the
name-keyed dict. -/

def stackFold (step : Str → Str → Except Str ResultDict)
    (tools : List (Str × Str)) (acc : List (Str × ResultDict)) :
    List (Str × ResultDict) :=
  tools.foldl
    (fun m t =>
      match step t.1 t.2 with
      | .ok r => dictInsert m t.1 r
      | .error e => dictInsert m t.1 (toolFaultEntry e))
    acc

/-- `research_tool_stack` of tool_researcher.py (root): iterate the tools
sequentially, record per-tool results or fault entries under the tool
name, and aggregate counts over the dict's values using the truthiness of
each value's success flag.  `step` is the awaited `research_tool_updates`
call for one (name, type), which may raise; tools are given as already
extracted (name, type) pairs. -/

def research_tool_stack (step : Str → Str → Except Str ResultDict)
    (tools : List (Str × Str)) (start_date end_date : Str)
    (now : Int) : StackResult :=
  let results := stackFold step tools []
  { total_tools := tools.length
  , successful := ((results.map Prod.snd).filter (fun r => r.success)).length
  , failed := ((results.map Prod.snd).filter (fun r => !r.success)).length
  , results := results
  , date_range := start_date ++ " to ".toList ++ end_date
  , timestamp := now }

/-- Modelled from the spec for comparison with the implemented parser:
"a line consisting of three or more hyphens". -/

def isHyphenLine (l : Str) : Bool :=
  decide (3 ≤ l.length) && l.all (fun c => c = '-')

/-- Modelled from the spec for comparison with the implemented parser:
group the lines of the text between delimiter lines. -/

def lineGroups (ls : List Str) : List (List Str) :=
  ls.foldr
    (fun l gs =>
      if isHyphenLine l then [] :: gs
      else
        match gs with
        | [] => [[l]]
        | g :: rest => (l :: g) :: rest)
    [[]]

/-- Join a list of strings with the separator between consecutive
elements (Python `sep.join(...)`). -/

def joinSep (d : Str) : List Str → Str
  | [] => []
  | [s] => s
  | s :: s' :: ss => s ++ d ++ joinSep d (s' :: ss)

/-- Modelled from the spec for comparison with the implemented parser:
candidate sections delimited by whole lines of three or more hyphens. -/

def specLineSections (t : Str) : List Str :=
  (lineGroups (splitLines t)).map (joinSep ['\n'])

/-- Modelled from the spec for comparison with the implemented parser:
the parse the claim describes, splitting only at whole delimiter lines. -/

def parseLineBasedClaim (t : Str) : List Update :=
  if hasNoUpdatesMarker t then []
  else extractUpdates (specLineSections t)

/-- The claim's relation between two tool identities: they differ only in
letter case and/or whitespace. -/

def differOnlyCaseWs (s t : Str) : Prop :=
  pyLower (s.filter (fun c => !isPyWs c)) = pyLower (t.filter (fun c => !isPyWs c))

instance (s t : Str) : Decidable (differOnlyCaseWs s t) := by
  unfold differOnlyCaseWs
  infer_instance

/-- A string with no underscore character; every ISO `YYYY-MM-DD` date is
of this form, which is what separates the key's date fields. -/

def underscoreFreeStr (s : Str) : Prop := ∀ c ∈ s, c ≠ '_'

instance (s : Str) : Decidable (underscoreFreeStr s) := by
  unfold underscoreFreeStr
  infer_instance

/-- A root store whose entries all sit at the key computed from their own
recorded tool name and date range, with underscore-free dates — the shape
every store reachable through `_save_cache` has. -/

def rootWellPlaced (store : RootStore) : Prop :=
  ∀ k e, store k = some e →
    k = rootCacheKey e.tool_name e.date_range ∧
    underscoreFreeStr e.date_range.1 ∧ underscoreFreeStr e.date_range.2

/-- The entry the stack loop records for one tool: its research result,
or the fault entry when the research call raised. -/

def stepEntry (step : Str → Str → Except Str ResultDict) (t : Str × Str) :
    ResultDict :=
  match step t.1 t.2 with
  | .ok r => r
  | .error e => toolFaultEntry e

deriving instance DecidableEq for Except

/-- The set of keys produced by inserting names left to right, skipping
those already present — the key set of a Python dict filled in a loop. -/

def keyFold (ks : List Str) (names : List Str) : List Str :=
  names.foldl (fun acc n => if n ∈ acc then acc else acc ++ [n]) ks

instance : Inhabited ResultDict := ⟨{ success := false }⟩

theorem splitFirst_eq_append {d s a b : Str}
    (h : splitFirst d s = some (a, b)) : s = a ++ d ++ b := by
  induction s generalizing a with
  | nil =>
    simp only [splitFirst] at h
    by_cases hd : d.isPrefixOf ([] : Str)
    · rw [if_pos hd] at h
      have hd' : d = [] := by
        cases d with
        | nil => rfl
        | cons x xs => simp [List.isPrefixOf] at hd
      cases h
      simp [hd']
    · rw [if_neg hd] at h
      cases h
  | cons c rest ih =>
    simp only [splitFirst] at h
    by_cases hp : d.isPrefixOf (c :: rest)
    · rw [if_pos hp] at h
      rcases List.isPrefixOf_iff_prefix.mp hp with ⟨t, ht⟩
      injection h with h1
      injection h1 with ha hb
      subst ha
      subst hb
      simp only [List.nil_append]
      rw [← ht, List.drop_left]
    · rw [if_neg hp] at h
      cases hsf : splitFirst d rest with
      | none => rw [hsf] at h; simp at h
      | some p =>
        obtain ⟨pa, pb⟩ := p
        rw [hsf] at h
        simp only [Option.map_some'] at h
        injection h with h1
        injection h1 with ha hb
        subst hb
        have h2 := ih hsf
        rw [← ha]
        simp [h2]

theorem splitFirst_length_lt {d s a b : Str} (hd : d ≠ [])
    (h : splitFirst d s = some (a, b)) : b.length < s.length := by
  have := splitFirst_eq_append h
  subst this
  simp only [List.length_append]
  have : 0 < d.length := List.length_pos_of_ne_nil hd
  omega

theorem splitFirst_nil {d : Str} (hd : d ≠ []) :
    splitFirst d ([] : Str) = none := by
  cases d with
  | nil => exact absurd rfl hd
  | cons x xs => simp [splitFirst, List.isPrefixOf]

theorem splitOnAux_congr {d : Str} (hd : d ≠ []) :
    ∀ fuel fuel' s, s.length ≤ fuel → s.length ≤ fuel' →
      splitOnAux d fuel s = splitOnAux d fuel' s := by
  intro fuel
  induction fuel with
  | zero =>
    intro fuel' s hs _
    have hnil : s = [] := List.eq_nil_of_length_eq_zero (Nat.le_zero.mp hs)
    subst hnil
    cases fuel' with
    | zero => rfl
    | succ n => simp [splitOnAux, splitFirst_nil hd]
  | succ n ih =>
    intro fuel' s hs hs'
    cases fuel' with
    | zero =>
      have hnil : s = [] := List.eq_nil_of_length_eq_zero (Nat.le_zero.mp hs')
      subst hnil
      simp [splitOnAux, splitFirst_nil hd]
    | succ m =>
      simp only [splitOnAux]
      cases hsf : splitFirst d s with
      | none => rfl
      | some p =>
        obtain ⟨a, b⟩ := p
        have hlt : b.length < s.length := splitFirst_length_lt hd hsf
        have h1 : b.length ≤ n := by omega
        have h2 : b.length ≤ m := by omega
        show a :: splitOnAux d n b = a :: splitOnAux d m b
        rw [ih m b h1 h2]

theorem splitOnSub_of_none {d s : Str} (h : splitFirst d s = none) :
    splitOnSub d s = [s] := by
  by_cases hd : d = []
  · simp [splitOnSub, hd]
  · simp only [splitOnSub, if_neg hd]
    cases hl : s.length with
    | zero => rfl
    | succ n => simp [splitOnAux, h]

theorem splitOnSub_of_some {d s a b : Str} (hd : d ≠ [])
    (h : splitFirst d s = some (a, b)) :
    splitOnSub d s = a :: splitOnSub d b := by
  simp only [splitOnSub, if_neg hd]
  have hlt : b.length < s.length := splitFirst_length_lt hd h
  cases hl : s.length with
  | zero => omega
  | succ n =>
    simp only [splitOnAux, h]
    have h1 : b.length ≤ n := by omega
    rw [splitOnAux_congr hd n b.length b h1 (le_refl _)]

theorem splitOnSub_nil {d : Str} (hd : d ≠ []) :
    splitOnSub d ([] : Str) = [([] : Str)] :=
  splitOnSub_of_none (splitFirst_nil hd)

example :
    parseAgentOutputFinal
      "Feature Name: Webhook Support\nRelease Date: 2024-03\n---\nFeature Name: OAuth\n".toList
    = [ { feature_name := some "Webhook Support".toList
        , release_date := some "2024-03".toList }
      , { feature_name := some "OAuth".toList } ] := by decide

example :
    parseAgentOutputFinal "Feature Name: A\nFeature Name: B\n".toList
    = [ { feature_name := some "B".toList } ] := by decide

example : parseAgentOutputFinal "Description: something".toList = [] := by decide

theorem underscore_append_inj {a b c d : Str}
    (ha : ∀ x ∈ a, x ≠ '_') (hc : ∀ x ∈ c, x ≠ '_')
    (h : a ++ '_' :: b = c ++ '_' :: d) : a = c ∧ b = d := by
  induction a generalizing c with
  | nil =>
    cases c with
    | nil => simpa using h
    | cons y c' =>
      exfalso
      simp only [List.nil_append, List.cons_append, List.cons.injEq] at h
      exact hc y (by simp) h.1.symm
  | cons x a' ih =>
    cases c with
    | nil =>
      exfalso
      simp only [List.cons_append, List.nil_append, List.cons.injEq] at h
      exact ha x (by simp) h.1
    | cons y c' =>
      simp only [List.cons_append, List.cons.injEq] at h
      obtain ⟨hxy, h'⟩ := h
      have := ih (fun z hz => ha z (by simp [hz])) (fun z hz => hc z (by simp [hz])) h'
      exact ⟨by simp [hxy, this.1], this.2⟩

theorem underscoreFree_reverse {s : Str} (h : underscoreFreeStr s) :
    ∀ x ∈ s.reverse, x ≠ '_' := by
  intro x hx
  exact h x (List.mem_reverse.mp hx)

theorem rootCacheKey_range_inj {n m : Str} {r r' : Str × Str}
    (h1 : underscoreFreeStr r.1) (h2 : underscoreFreeStr r.2)
    (h1' : underscoreFreeStr r'.1) (h2' : underscoreFreeStr r'.2)
    (h : rootCacheKey n r = rootCacheKey m r') : r = r' := by
  obtain ⟨a, b⟩ := r
  obtain ⟨c, d⟩ := r'
  have hrev := congrArg List.reverse h
  simp only [rootCacheKey, List.reverse_append, List.reverse_cons] at hrev
  have hshape :
      b.reverse ++ '_' :: (a.reverse ++ '_' :: (pyReplaceSpace (pyLower n)).reverse)
        = d.reverse ++ '_' :: (c.reverse ++ '_' :: (pyReplaceSpace (pyLower m)).reverse) := by
    simpa [List.append_assoc] using hrev
  have hbd := underscore_append_inj (underscoreFree_reverse h2) (underscoreFree_reverse h2') hshape
  have hac := underscore_append_inj (underscoreFree_reverse h1) (underscoreFree_reverse h1') hbd.2
  have hb : b = d := by
    have := congrArg List.reverse hbd.1
    simpa using this
  have ha : a = c := by
    have := congrArg List.reverse hac.1
    simpa using this
  simp [ha, hb]

/-- Claim C1: a fresh, range-matching cache entry is returned by the read
and a stale entry is treated as absent regardless of content, in both the
core `_load_cache` and the final `_check_cache` variants. -/
theorem cache_freshness_c1 :
    (∀ (store : CoreStore) (tool_name : Str) (dr : Str × Str)
        (e : CoreEntry) (now win : Int),
      store (coreNormalizeToolName tool_name) = some e →
        (now - e.cached_at < win → e.date_range = dr →
          coreLoadCache store tool_name dr now win = some e.results) ∧
        (win ≤ now - e.cached_at →
          coreLoadCache store tool_name dr now win = none)) ∧
    (∀ (store : FinalStore) (cache_key : Str) (e : FinalEntry) (now win : Int),
      store cache_key = some e →
        (now - e.cached_at < win →
          finalCheckCache store cache_key now win = some e) ∧
        (win ≤ now - e.cached_at →
          finalCheckCache store cache_key now win = none)) := by
  constructor
  · intro store tool_name dr e now win hse
    constructor
    · intro hfresh hdr
      simp [coreLoadCache, hse, hfresh, hdr]
    · intro hstale
      simp [coreLoadCache, hse, not_lt.mpr hstale]
  · intro store cache_key e now win hse
    constructor
    · intro hfresh
      simp [finalCheckCache, hse, hfresh]
    · intro hstale
      simp [finalCheckCache, hse, not_lt.mpr hstale]

/-- Witness for C1 at a concrete store: a 5-day-old entry with a matching
range is returned; a 40-day-old entry is absent (window 30). -/
theorem cache_freshness_c1_witness :
    (coreLoadCache
        (fun k =>
          if k = "acme_crm".toList then
            some { tool_name := "Acme CRM".toList
                 , date_range := ("2023-01-01".toList, "2024-01-01".toList)
                 , cached_at := 0
                 , results := { success := true } }
          else none)
        "Acme CRM".toList ("2023-01-01".toList, "2024-01-01".toList) 5 30
      = some { success := true }) ∧
    (coreLoadCache
        (fun k =>
          if k = "acme_crm".toList then
            some { tool_name := "Acme CRM".toList
                 , date_range := ("2023-01-01".toList, "2024-01-01".toList)
                 , cached_at := 0
                 , results := { success := true } }
          else none)
        "Acme CRM".toList ("2023-01-01".toList, "2024-01-01".toList) 40 30
      = none) ∧
    (finalCheckCache
        (fun k =>
          if k = "acme_crm_2023-01-01_2024-01-01".toList then
            some { cached_at := 0
                 , cache_key := "acme_crm_2023-01-01_2024-01-01".toList
                 , results := { success := true } }
          else none)
        "acme_crm_2023-01-01_2024-01-01".toList 5 30
      = some { cached_at := 0
             , cache_key := "acme_crm_2023-01-01_2024-01-01".toList
             , results := { success := true } }) := by
  refine ⟨?_, ?_, ?_⟩
  · exact (cache_freshness_c1.1
      (fun k =>
        if k = "acme_crm".toList then
          some { tool_name := "Acme CRM".toList
               , date_range := ("2023-01-01".toList, "2024-01-01".toList)
               , cached_at := 0
               , results := { success := true } }
        else none)
      "Acme CRM".toList ("2023-01-01".toList, "2024-01-01".toList)
      { tool_name := "Acme CRM".toList
      , date_range := ("2023-01-01".toList, "2024-01-01".toList)
      , cached_at := 0
      , results := { success := true } }
      5 30 (by decide)).1 (by decide) (by decide)
  · exact (cache_freshness_c1.1
      (fun k =>
        if k = "acme_crm".toList then
          some { tool_name := "Acme CRM".toList
               , date_range := ("2023-01-01".toList, "2024-01-01".toList)
               , cached_at := 0
               , results := { success := true } }
        else none)
      "Acme CRM".toList ("2023-01-01".toList, "2024-01-01".toList)
      { tool_name := "Acme CRM".toList
      , date_range := ("2023-01-01".toList, "2024-01-01".toList)
      , cached_at := 0
      , results := { success := true } }
      40 30 (by decide)).2 (by decide)
  · exact (cache_freshness_c1.2
      (fun k =>
        if k = "acme_crm_2023-01-01_2024-01-01".toList then
          some { cached_at := 0
               , cache_key := "acme_crm_2023-01-01_2024-01-01".toList
               , results := { success := true } }
        else none)
      "acme_crm_2023-01-01_2024-01-01".toList
      { cached_at := 0
      , cache_key := "acme_crm_2023-01-01_2024-01-01".toList
      , results := { success := true } }
      5 30 (by decide)).1 (by decide)

/-- Claim C2: an input containing any negative-result marker
(case-insensitively) parses to the empty sequence immediately, in both
parser variants, regardless of any sections in the text. -/
theorem negative_marker_precedence_c2 :
    ∀ (t : Str) (fb : Str → List Update),
      hasNoUpdatesMarker t = true →
      parseAgentOutputFinal t = [] ∧ parseAgentOutputRoot fb t = [] := by
  intro t fb h
  constructor
  · simp [parseAgentOutputFinal, h]
  · simp [parseAgentOutputRoot, h]

/-- Witness for C2: a text carrying the marker and a well-formed section
parses to the empty sequence (while the section alone would produce a
record). -/
theorem negative_marker_precedence_c2_witness :
    hasNoUpdatesMarker
      "No public updates found for AcmeX\n---\nFeature Name: Webhook Support\nRelease Date: 2024-03\n".toList
      = true ∧
    parseAgentOutputFinal
      "No public updates found for AcmeX\n---\nFeature Name: Webhook Support\nRelease Date: 2024-03\n".toList
      = [] ∧
    parseAgentOutputRoot (fun _ => [])
      "No public updates found for AcmeX\n---\nFeature Name: Webhook Support\nRelease Date: 2024-03\n".toList
      = [] ∧
    parseAgentOutputFinal
      "Feature Name: Webhook Support\nRelease Date: 2024-03\n".toList
      ≠ [] := by
  refine ⟨by decide, ?_, ?_, by decide⟩
  · exact (negative_marker_precedence_c2 _ (fun _ => []) (by decide)).1
  · exact (negative_marker_precedence_c2 _ (fun _ => []) (by decide)).2

/-- Claim C5: a cache read never returns a stored result whose recorded
date range differs from the requested pair, and a fresh entry written for
the same tool under a different range is treated as absent — in the core
variant by the explicit range comparison of `_load_cache`, in the root
variant because the key embeds the (underscore-free, ISO-formatted)
dates. -/
theorem range_match_read_c5 :
    (∀ (store : CoreStore) (tool_name : Str) (dr : Str × Str)
        (now win : Int) (res : ResultDict),
      coreLoadCache store tool_name dr now win = some res →
      ∃ e, store (coreNormalizeToolName tool_name) = some e ∧
        e.date_range = dr ∧ res = e.results) ∧
    (∀ (store : CoreStore) (tool_name : Str) (r1 r2 : Str × Str)
        (v : ResultDict) (tw now win : Int),
      r1 ≠ r2 →
      coreLoadCache (coreSaveCache store tool_name r2 v tw) tool_name r1 now win
        = none) ∧
    (∀ (tool_name : Str) (r1 r2 : Str × Str) (v : ResultDict)
        (tw now win : Int),
      underscoreFreeStr r1.1 → underscoreFreeStr r1.2 →
      underscoreFreeStr r2.1 → underscoreFreeStr r2.2 →
      r1 ≠ r2 →
      rootLoadCache (rootSaveCache (fun _ => none) tool_name r2 v tw)
        tool_name r1 now win = none) ∧
    (∀ (store : RootStore) (tool_name : Str) (dr : Str × Str)
        (now win : Int) (res : ResultDict),
      rootWellPlaced store →
      underscoreFreeStr dr.1 → underscoreFreeStr dr.2 →
      rootLoadCache store tool_name dr now win = some res →
      ∃ e, store (rootCacheKey tool_name dr) = some e ∧
        e.date_range = dr ∧ res = e.results) := by
  refine ⟨?_, ?_, ?_, ?_⟩
  · intro store tool_name dr now win res h
    simp only [coreLoadCache] at h
    split at h
    · cases h
    · rename_i e hse
      split at h
      · split at h
        · rename_i hfresh hdr
          injection h with h'
          exact ⟨e, hse, hdr, h'.symm⟩
        · cases h
      · cases h
  · intro store tool_name r1 r2 v tw now win hne
    simp only [coreLoadCache, coreSaveCache, if_pos rfl]
    by_cases hfresh : now - tw < win
    · simp [hfresh, hne.symm]
    · simp [hfresh]
  · intro tool_name r1 r2 v tw now win h11 h12 h21 h22 hne
    have hkey : rootCacheKey tool_name r1 ≠ rootCacheKey tool_name r2 := by
      intro hk
      exact hne (rootCacheKey_range_inj h11 h12 h21 h22 hk)
    simp [rootLoadCache, rootSaveCache, hkey]
  · intro store tool_name dr now win res hwp h1 h2 h
    simp only [rootLoadCache] at h
    split at h
    · cases h
    · rename_i e hse
      split at h
      · injection h with h'
        obtain ⟨hk, hu1, hu2⟩ := hwp _ _ hse
        have hdr : dr = e.date_range := rootCacheKey_range_inj h1 h2 hu1 hu2 hk
        exact ⟨e, hse, hdr.symm, h'.symm⟩
      · cases h

/-- Witness for C5 at concrete inputs: a core entry stored under range r2
is absent for a request with range r1; likewise for the root store; and a
returned core read exposes an entry with the requested range. -/
theorem range_match_read_c5_witness :
    (coreLoadCache
        (coreSaveCache (fun _ => none) "Acme CRM".toList
          ("2024-01-01".toList, "2024-06-30".toList) { success := true } 0)
        "Acme CRM".toList ("2023-01-01".toList, "2024-01-01".toList) 1 30
      = none) ∧
    (rootLoadCache
        (rootSaveCache (fun _ => none) "Acme CRM".toList
          ("2024-01-01".toList, "2024-06-30".toList) { success := true } 0)
        "Acme CRM".toList ("2023-01-01".toList, "2024-01-01".toList) 1 30
      = none) ∧
    (∃ e, (coreSaveCache (fun _ => none) "Acme CRM".toList
            ("2023-01-01".toList, "2024-01-01".toList) { success := true } 0)
            (coreNormalizeToolName "Acme CRM".toList) = some e ∧
          e.date_range = ("2023-01-01".toList, "2024-01-01".toList) ∧
          ({ success := true } : ResultDict) = e.results) := by
  refine ⟨?_, ?_, ?_⟩
  · exact range_match_read_c5.2.1 (fun _ => none) "Acme CRM".toList
      ("2023-01-01".toList, "2024-01-01".toList)
      ("2024-01-01".toList, "2024-06-30".toList)
      { success := true } 0 1 30 (by decide)
  · exact range_match_read_c5.2.2.1 "Acme CRM".toList
      ("2023-01-01".toList, "2024-01-01".toList)
      ("2024-01-01".toList, "2024-06-30".toList)
      { success := true } 0 1 30
      (by decide) (by decide) (by decide) (by decide) (by decide)
  · exact range_match_read_c5.1
      (coreSaveCache (fun _ => none) "Acme CRM".toList
        ("2023-01-01".toList, "2024-01-01".toList) { success := true } 0)
      "Acme CRM".toList ("2023-01-01".toList, "2024-01-01".toList) 1 30
      { success := true } (by decide)

/-- Counterexample to claim C6 as stated: in core/tool_researcher.py the
cache key is the normalized tool name alone, so a fresh entry stored for
range r1 is returned before, but no longer after, a put for the same tool
under a different range r2 — the get for r1 then reports absent instead
of the stored v1. -/
theorem per_range_independence_c6_counterexample :
    (coreLoadCache
        (coreSaveCache (fun _ => none) "Acme CRM".toList
          ("2023-01-01".toList, "2024-01-01".toList) { success := true } 0)
        "Acme CRM".toList ("2023-01-01".toList, "2024-01-01".toList) 2 30
      = some { success := true }) ∧
    (coreLoadCache
        (coreSaveCache
          (coreSaveCache (fun _ => none) "Acme CRM".toList
            ("2023-01-01".toList, "2024-01-01".toList) { success := true } 0)
          "Acme CRM".toList ("2024-01-01".toList, "2024-06-30".toList)
          { success := false, error := some "x".toList } 1)
        "Acme CRM".toList ("2023-01-01".toList, "2024-01-01".toList) 2 30
      = none) :=
  ⟨by decide, by decide⟩

/-- Claim C6 as amended: the frame property holds in the root variant,
whose key embeds the (underscore-free) date range — a put for a different
range leaves the read for r1 unchanged; in the core variant the key is
derived from the tool identity alone, so the put replaces the tool's
single entry and the subsequent get for r1 returns absent. -/
theorem per_range_independence_c6_amended :
    (∀ (store : RootStore) (tool_name : Str) (r1 r2 : Str × Str)
        (v2 : ResultDict) (tw now win : Int),
      underscoreFreeStr r1.1 → underscoreFreeStr r1.2 →
      underscoreFreeStr r2.1 → underscoreFreeStr r2.2 → r1 ≠ r2 →
      rootLoadCache (rootSaveCache store tool_name r2 v2 tw) tool_name r1 now win
        = rootLoadCache store tool_name r1 now win) ∧
    (∀ (store : CoreStore) (tool_name : Str) (r1 r2 : Str × Str)
        (v2 : ResultDict) (tw now win : Int),
      r1 ≠ r2 →
      coreLoadCache (coreSaveCache store tool_name r2 v2 tw) tool_name r1 now win
        = none) := by
  constructor
  · intro store tool_name r1 r2 v2 tw now win h11 h12 h21 h22 hne
    have hkey : rootCacheKey tool_name r1 ≠ rootCacheKey tool_name r2 := by
      intro hk
      exact hne (rootCacheKey_range_inj h11 h12 h21 h22 hk)
    simp [rootLoadCache, rootSaveCache, hkey]
  · intro store tool_name r1 r2 v2 tw now win hne
    simp only [coreLoadCache, coreSaveCache, if_pos rfl]
    by_cases hfresh : now - tw < win
    · simp [hfresh, Ne.symm hne]
    · simp [hfresh]

/-- Witness for the amended C6: after storing v1 for r1 and then v2 for
r2 in the root cache, the get for r1 still returns v1; the core get for
r1 returns absent. -/
theorem per_range_independence_c6_witness :
    (rootLoadCache
        (rootSaveCache
          (rootSaveCache (fun _ => none) "Acme CRM".toList
            ("2023-01-01".toList, "2024-01-01".toList) { success := true } 0)
          "Acme CRM".toList ("2024-01-01".toList, "2024-06-30".toList)
          { success := false, error := some "x".toList } 1)
        "Acme CRM".toList ("2023-01-01".toList, "2024-01-01".toList) 2 30
      = some { success := true }) ∧
    (coreLoadCache
        (coreSaveCache
          (coreSaveCache (fun _ => none) "Acme CRM".toList
            ("2023-01-01".toList, "2024-01-01".toList) { success := true } 0)
          "Acme CRM".toList ("2024-01-01".toList, "2024-06-30".toList)
          { success := false, error := some "x".toList } 1)
        "Acme CRM".toList ("2023-01-01".toList, "2024-01-01".toList) 2 30
      = none) := by
  constructor
  · exact (per_range_independence_c6_amended.1
      (rootSaveCache (fun _ => none) "Acme CRM".toList
        ("2023-01-01".toList, "2024-01-01".toList) { success := true } 0)
      "Acme CRM".toList
      ("2023-01-01".toList, "2024-01-01".toList)
      ("2024-01-01".toList, "2024-06-30".toList)
      { success := false, error := some "x".toList } 1 2 30
      (by decide) (by decide) (by decide) (by decide) (by decide)).trans
      (by decide)
  · exact per_range_independence_c6_amended.2
      (coreSaveCache (fun _ => none) "Acme CRM".toList
        ("2023-01-01".toList, "2024-01-01".toList) { success := true } 0)
      "Acme CRM".toList
      ("2023-01-01".toList, "2024-01-01".toList)
      ("2024-01-01".toList, "2024-06-30".toList)
      { success := false, error := some "x".toList } 1 2 30
      (by decide)

/-- Counterexample to claim C8 as stated: the identities differ only in
whitespace (one space versus two), yet both the core normalizer and the
root key separate them, and a fresh result stored under the first is
absent for a get under the second — interior whitespace is replaced
character-for-character, not collapsed. -/
theorem key_normalization_c8_counterexample :
    differOnlyCaseWs "Acme CRM".toList "Acme  CRM".toList ∧
    coreNormalizeToolName "Acme CRM".toList
      ≠ coreNormalizeToolName "Acme  CRM".toList ∧
    rootCacheKey "Acme CRM".toList ("2023-01-01".toList, "2024-01-01".toList)
      ≠ rootCacheKey "Acme  CRM".toList ("2023-01-01".toList, "2024-01-01".toList) ∧
    coreLoadCache
      (coreSaveCache (fun _ => none) "Acme CRM".toList
        ("2023-01-01".toList, "2024-01-01".toList) { success := true } 0)
      "Acme  CRM".toList ("2023-01-01".toList, "2024-01-01".toList) 1 30
      = none :=
  ⟨by decide, by decide, by decide, by decide⟩

/-- Claim C8 as amended: identities that agree after lowercasing map to
the same key in both variants; for the core variant, agreement after
lowercasing and stripping leading/trailing whitespace suffices, and a
result put under one such identity is returned by a fresh matching get
under the other. -/
theorem key_normalization_c8_amended :
    (∀ (s t : Str) (dr : Str × Str),
      pyLower s = pyLower t →
      rootCacheKey s dr = rootCacheKey t dr ∧
      coreNormalizeToolName s = coreNormalizeToolName t) ∧
    (∀ s t : Str,
      pyStrip (pyLower s) = pyStrip (pyLower t) →
      coreNormalizeToolName s = coreNormalizeToolName t) ∧
    (∀ (store : CoreStore) (s t : Str) (dr : Str × Str) (v : ResultDict)
        (tw now win : Int),
      pyStrip (pyLower s) = pyStrip (pyLower t) →
      now - tw < win →
      coreLoadCache (coreSaveCache store s dr v tw) t dr now win = some v) := by
  refine ⟨?_, ?_, ?_⟩
  · intro s t dr h
    constructor
    · simp [rootCacheKey, h]
    · simp [coreNormalizeToolName, h]
  · intro s t h
    simp [coreNormalizeToolName, h]
  · intro store s t dr v tw now win h hfresh
    have hk : coreNormalizeToolName t = coreNormalizeToolName s := by
      simp [coreNormalizeToolName, h]
    simp [coreLoadCache, coreSaveCache, hk, hfresh]

/-- Witness for the amended C8: a result stored under "Acme CRM" is
returned for a fresh get under " acme crm " (case and edge whitespace
differences), and the root keys for "Acme CRM" and "acme crm"
coincide. -/
theorem key_normalization_c8_witness :
    coreLoadCache
      (coreSaveCache (fun _ => none) "Acme CRM".toList
        ("2023-01-01".toList, "2024-01-01".toList) { success := true } 0)
      " acme crm ".toList ("2023-01-01".toList, "2024-01-01".toList) 1 30
      = some { success := true } ∧
    rootCacheKey "Acme CRM".toList ("2023-01-01".toList, "2024-01-01".toList)
      = rootCacheKey "acme crm".toList ("2023-01-01".toList, "2024-01-01".toList) := by
  constructor
  · exact key_normalization_c8_amended.2.2 (fun _ => none)
      "Acme CRM".toList " acme crm ".toList
      ("2023-01-01".toList, "2024-01-01".toList)
      { success := true } 0 1 30 (by decide) (by decide)
  · exact (key_normalization_c8_amended.1 "Acme CRM".toList "acme crm".toList
      ("2023-01-01".toList, "2024-01-01".toList) (by decide)).1

theorem splitFirst_of_no_head {dh : Char} {dt s : Str}
    (h : ∀ c ∈ s, c ≠ dh) : splitFirst (dh :: dt) s = none := by
  induction s with
  | nil => exact splitFirst_nil (by simp)
  | cons c rest ih =>
    have hc : c ≠ dh := h c (by simp)
    have hpre : ((dh :: dt).isPrefixOf (c :: rest)) = false := by
      simp only [List.isPrefixOf, Bool.and_eq_false_iff]
      left
      exact beq_eq_false_iff_ne.mpr (fun h' => hc h'.symm)
    simp only [splitFirst, hpre, Bool.false_eq_true, if_false]
    rw [ih (fun x hx => h x (by simp [hx]))]
    rfl

theorem splitFirst_at_delim {dh : Char} {dt a b : Str}
    (h : ∀ c ∈ a, c ≠ dh) :
    splitFirst (dh :: dt) (a ++ (dh :: dt) ++ b) = some (a, b) := by
  induction a with
  | nil =>
    show splitFirst (dh :: dt) (dh :: (dt ++ b)) = some ([], b)
    have hpre : ((dh :: dt).isPrefixOf (dh :: (dt ++ b))) = true :=
      List.isPrefixOf_iff_prefix.mpr ⟨b, by simp⟩
    simp only [splitFirst, hpre, if_true, List.length_cons, List.drop_succ_cons,
      List.drop_left]
  | cons x a' ih =>
    have hx : x ≠ dh := h x (by simp)
    have hpre : ((dh :: dt).isPrefixOf (x :: (a' ++ (dh :: dt) ++ b))) = false := by
      simp only [List.isPrefixOf, Bool.and_eq_false_iff]
      left
      exact beq_eq_false_iff_ne.mpr (fun h' => hx h'.symm)
    show splitFirst (dh :: dt) (x :: (a' ++ (dh :: dt) ++ b)) = some (x :: a', b)
    simp only [splitFirst, hpre, Bool.false_eq_true, if_false]
    rw [ih (fun c hc => h c (by simp [hc]))]
    rfl

theorem splitOnSub_joinSep {dh : Char} {dt : Str} :
    ∀ ss : List Str, ss ≠ [] → (∀ s ∈ ss, ∀ c ∈ s, c ≠ dh) →
      splitOnSub (dh :: dt) (joinSep (dh :: dt) ss) = ss := by
  intro ss
  induction ss with
  | nil => intro h _; exact absurd rfl h
  | cons s ss' ih =>
    intro _ hfree
    cases ss' with
    | nil =>
      show splitOnSub (dh :: dt) s = [s]
      exact splitOnSub_of_none (splitFirst_of_no_head (hfree s (by simp)))
    | cons s2 ss'' =>
      show splitOnSub (dh :: dt) (s ++ (dh :: dt) ++ joinSep (dh :: dt) (s2 :: ss''))
        = s :: s2 :: ss''
      rw [splitOnSub_of_some (by simp) (splitFirst_at_delim (hfree s (by simp)))]
      congr 1
      exact ih (by simp) (fun x hx c hc => hfree x (by simp [hx]) c hc)

/-- Counterexample to claim C7 as stated: three hyphens in the middle of a
line do begin a new section — the implemented parser splits the text at
the bare substring, while the spec-modelled line-based split keeps the
text as a single section with a single record. -/
theorem section_delimiter_c7_counterexample :
    hasNoUpdatesMarker "Feature Name: A---Feature Name: B".toList = false ∧
    parseAgentOutputFinal "Feature Name: A---Feature Name: B".toList
      = [ { feature_name := some "A".toList }
        , { feature_name := some "B".toList } ] ∧
    parseLineBasedClaim "Feature Name: A---Feature Name: B".toList
      = [ { feature_name := some "A---Feature Name: B".toList } ] ∧
    parseAgentOutputFinal "Feature Name: A---Feature Name: B".toList
      ≠ parseLineBasedClaim "Feature Name: A---Feature Name: B".toList :=
  ⟨by decide, by decide, by decide, by decide⟩

/-- Claim C7 as amended: for marker-free input the parser splits the text
into candidate sections at every occurrence of the three-hyphen substring,
wherever it appears; in particular a text assembled from hyphen-free
chunks joined by the delimiter parses exactly to the per-section
extraction of those chunks. -/
theorem section_delimiter_c7_amended :
    ∀ ss : List Str, ss ≠ [] →
      (∀ s ∈ ss, ∀ c ∈ s, c ≠ '-') →
      hasNoUpdatesMarker (joinSep hyphenDelim ss) = false →
      parseAgentOutputFinal (joinSep hyphenDelim ss) = extractUpdates ss := by
  intro ss hne hfree hmk
  simp only [parseAgentOutputFinal, hmk, Bool.false_eq_true, if_false]
  congr 1
  have hdelim : hyphenDelim = '-' :: ['-', '-'] := rfl
  rw [hdelim]
  exact splitOnSub_joinSep ss hne hfree

/-- Witness for the amended C7 on two concrete hyphen-free sections. -/
theorem section_delimiter_c7_witness :
    parseAgentOutputFinal
      (joinSep hyphenDelim
        [ "Feature Name: Alpha\nRelease Date: March 2024\n".toList
        , "\nFeature Name: Beta\n".toList ])
      = extractUpdates
        [ "Feature Name: Alpha\nRelease Date: March 2024\n".toList
        , "\nFeature Name: Beta\n".toList ] :=
  section_delimiter_c7_amended
    [ "Feature Name: Alpha\nRelease Date: March 2024\n".toList
    , "\nFeature Name: Beta\n".toList ]
    (by decide) (by decide) (by decide)

/-- Counterexample to claim C3 as stated: a registry entry with
auth_required true but an absent endpoint URL fails the API branch with
the no-endpoint error before the auth check, so the structured failure
does not carry needs_setup true. -/
theorem auth_fallback_c3_counterexample :
    (fun n => if n = "toolx".toList then
        some { endpoint := none, auth_required := true } else none : Registry)
        "toolx".toList = some { endpoint := none, auth_required := true } ∧
    (research_via_api
        (fun n => if n = "toolx".toList then
          some { endpoint := none, auth_required := true } else none)
        "toolx".toList).needs_setup ≠ some true ∧
    research_via_api
        (fun n => if n = "toolx".toList then
          some { endpoint := none, auth_required := true } else none)
        "toolx".toList
      = { success := false, error := some "No API endpoint available".toList } :=
  ⟨by decide, by decide, by decide⟩

/-- Claim C3 as amended: for a tool whose registry entry has a present,
non-empty endpoint URL and auth_required true, and a cache miss, the API
branch produces the structured needs_setup failure without touching the
placeholder data path, and the per-tool flow proceeds to web research,
returning and caching the web result. -/
theorem auth_fallback_c3_amended :
    ∀ (reg : Registry) (cap : Except Str Str) (jx : Str → JExtract)
      (store : CoreStore) (now win : Int)
      (tool_name start_date end_date : Str) (info : EndpointInfo) (url : Str),
      reg tool_name = some info →
      info.endpoint = some url → url ≠ [] →
      info.auth_required = true →
      coreLoadCache store tool_name (start_date, end_date) now win = none →
      research_via_api reg tool_name
        = { success := false
          , error := some "Authentication required but credentials not configured".toList
          , needs_setup := some true } ∧
      research_tool_updates_core reg cap jx store now win
          tool_name start_date end_date
        = ( research_via_web_core cap jx tool_name
          , coreSaveCache store tool_name (start_date, end_date)
              (research_via_web_core cap jx tool_name) now ) := by
  intro reg cap jx store now win tool_name start_date end_date info url
    hreg hep hurl hauth hmiss
  have htr : strOptTruthy info.endpoint = true := by
    rw [hep]
    simp [strOptTruthy, hurl]
  have happi : research_via_api reg tool_name
      = { success := false
        , error := some "Authentication required but credentials not configured".toList
        , needs_setup := some true } := by
    simp [research_via_api, get_endpoint, hreg, htr, hauth]
  refine ⟨happi, ?_⟩
  have hhas : has_api_endpoint reg tool_name = true := by
    simp [has_api_endpoint, hreg]
  simp [research_tool_updates_core, hmiss, hhas, happi]

/-- Witness for the amended C3 at a concrete registry, capability and
empty cache. -/
theorem auth_fallback_c3_witness :
    research_via_api
        (fun n => if n = "wealthbox".toList then
          some { endpoint := some "https://api.crmworkspace.com/v1".toList
               , auth_required := true } else none)
        "wealthbox".toList
      = { success := false
        , error := some "Authentication required but credentials not configured".toList
        , needs_setup := some true } ∧
    research_tool_updates_core
        (fun n => if n = "wealthbox".toList then
          some { endpoint := some "https://api.crmworkspace.com/v1".toList
               , auth_required := true } else none)
        (Except.ok "No public updates found for wealthbox".toList)
        (fun _ => JExtract.noMatch)
        (fun _ => none) 0 30
        "wealthbox".toList "2023-01-01".toList "2024-01-01".toList
      = ( research_via_web_core
            (Except.ok "No public updates found for wealthbox".toList)
            (fun _ => JExtract.noMatch) "wealthbox".toList
        , coreSaveCache (fun _ => none) "wealthbox".toList
            ("2023-01-01".toList, "2024-01-01".toList)
            (research_via_web_core
              (Except.ok "No public updates found for wealthbox".toList)
              (fun _ => JExtract.noMatch) "wealthbox".toList) 0 ) :=
  auth_fallback_c3_amended
    (fun n => if n = "wealthbox".toList then
      some { endpoint := some "https://api.crmworkspace.com/v1".toList
           , auth_required := true } else none)
    (Except.ok "No public updates found for wealthbox".toList)
    (fun _ => JExtract.noMatch)
    (fun _ => none) 0 30
    "wealthbox".toList "2023-01-01".toList "2024-01-01".toList
    { endpoint := some "https://api.crmworkspace.com/v1".toList
    , auth_required := true }
    "https://api.crmworkspace.com/v1".toList
    (by decide) (by decide) (by decide) (by decide) (by decide)

theorem dictLookup_insert (m : List (Str × ResultDict)) (k k' : Str)
    (v : ResultDict) :
    dictLookup k (dictInsert m k' v) = if k = k' then some v else dictLookup k m := by
  induction m with
  | nil =>
    show dictLookup k [(k', v)] = if k = k' then some v else none
    by_cases h : k = k'
    · subst h; simp [dictLookup]
    · simp [dictLookup, Ne.symm h, h]
  | cons p m' ih =>
    simp only [dictInsert]
    by_cases hp : p.1 = k'
    · rw [if_pos hp]
      by_cases h : k = k'
      · subst h
        simp [dictLookup]
      · have h1 : ¬(k' = k) := fun hh => h hh.symm
        have h2 : ¬(p.1 = k) := by rw [hp]; exact h1
        simp [dictLookup, h1, h2, h]
    · rw [if_neg hp]
      by_cases hpk : p.1 = k
      · have hkk : ¬(k = k') := fun hh => hp (hpk.trans hh)
        simp [dictLookup, hpk, hkk]
      · simp [dictLookup, hpk, ih]

theorem stackFold_cons (step : Str → Str → Except Str ResultDict)
    (t : Str × Str) (ts : List (Str × Str)) (acc : List (Str × ResultDict)) :
    stackFold step (t :: ts) acc
      = stackFold step ts (dictInsert acc t.1 (stepEntry step t)) := by
  cases h : step t.1 t.2 with
  | ok r => simp [stackFold, stepEntry, h]
  | error e => simp [stackFold, stepEntry, h]

theorem dictLookup_stackFold (step : Str → Str → Except Str ResultDict) :
    ∀ (tools : List (Str × Str)) (acc : List (Str × ResultDict)) (k : Str),
      dictLookup k (stackFold step tools acc)
        = match (tools.reverse).find? (fun t => t.1 = k) with
          | some t => some (stepEntry step t)
          | none => dictLookup k acc := by
  intro tools
  induction tools with
  | nil => intro acc k; simp [stackFold]
  | cons t ts ih =>
    intro acc k
    rw [stackFold_cons, ih]
    simp only [List.reverse_cons, List.find?_append]
    cases hf : (ts.reverse).find? (fun t' => decide (t'.1 = k)) with
    | some u => rfl
    | none =>
      simp only [Option.none_or]
      rw [dictLookup_insert]
      by_cases hk : t.1 = k
      · have hfind : [t].find? (fun t' => decide (t'.1 = k)) = some t :=
          List.find?_cons_of_pos _ (by simp [hk])
        rw [hfind, if_pos hk.symm]
      · have hfind : [t].find? (fun t' => decide (t'.1 = k)) = none := by
          rw [List.find?_cons_of_neg _ (by simp [hk])]
          rfl
        rw [hfind, if_neg (fun hh => hk hh.symm)]

theorem research_tool_stack_results (step : Str → Str → Except Str ResultDict)
    (tools : List (Str × Str)) (start_date end_date : Str) (now : Int) :
    (research_tool_stack step tools start_date end_date now).results
      = stackFold step tools [] := rfl

/-- Counterexample to claim C9 as stated: two tools share the name "a";
the first faults, the second succeeds, and since the results mapping is
keyed by name the later success overwrites the fault entry — the faulting
tool's entry is not marked success false. -/
theorem stack_resilience_c9_counterexample :
    (fun (_ ty : Str) =>
      if ty = "t1".toList then Except.error "boom".toList
      else Except.ok ({ success := true } : ResultDict))
      "a".toList "t1".toList = Except.error "boom".toList ∧
    (research_tool_stack
        (fun _ ty =>
          if ty = "t1".toList then Except.error "boom".toList
          else Except.ok ({ success := true } : ResultDict))
        [("a".toList, "t1".toList), ("a".toList, "t2".toList)]
        "2023-01-01".toList "2024-01-01".toList 0).results
      = [("a".toList, { success := true })] ∧
    dictLookup "a".toList
      (research_tool_stack
        (fun _ ty =>
          if ty = "t1".toList then Except.error "boom".toList
          else Except.ok ({ success := true } : ResultDict))
        [("a".toList, "t1".toList), ("a".toList, "t2".toList)]
        "2023-01-01".toList "2024-01-01".toList 0).results
      = some { success := true } :=
  ⟨by decide, by decide, by decide⟩

/-- Claim C9 as amended: every tool of the stack has an entry under its
name in the aggregate, no exception escapes the run (the aggregate is a
total function of the inputs), and a tool whose research faults — or
succeeds — owns the entry under its name with exactly its outcome,
provided no later tool in the stack carries the same name (the mapping is
keyed by name and later results overwrite earlier ones). -/
theorem stack_resilience_c9_amended :
    ∀ (step : Str → Str → Except Str ResultDict) (tools : List (Str × Str))
      (start_date end_date : Str) (now : Int),
      (∀ t ∈ tools,
        dictLookup t.1
          (research_tool_stack step tools start_date end_date now).results
          ≠ none) ∧
      (∀ (pre post : List (Str × Str)) (t : Str × Str) (e : Str),
        tools = pre ++ t :: post →
        step t.1 t.2 = Except.error e →
        (∀ t' ∈ post, t'.1 ≠ t.1) →
        dictLookup t.1
          (research_tool_stack step tools start_date end_date now).results
          = some (toolFaultEntry e)) ∧
      (∀ (pre post : List (Str × Str)) (t : Str × Str) (r : ResultDict),
        tools = pre ++ t :: post →
        step t.1 t.2 = Except.ok r →
        (∀ t' ∈ post, t'.1 ≠ t.1) →
        dictLookup t.1
          (research_tool_stack step tools start_date end_date now).results
          = some r) := by
  intro step tools start_date end_date now
  refine ⟨?_, ?_, ?_⟩
  · intro t ht
    rw [research_tool_stack_results, dictLookup_stackFold]
    cases hf : (tools.reverse).find? (fun t' => decide (t'.1 = t.1)) with
    | some u => simp
    | none =>
      exfalso
      have := List.find?_eq_none.mp hf t (List.mem_reverse.mpr ht)
      simp at this
  · intro pre post t e hsplit hstep hlater
    rw [research_tool_stack_results, dictLookup_stackFold]
    have hrev : tools.reverse = post.reverse ++ t :: pre.reverse := by
      rw [hsplit]
      simp
    rw [hrev, List.find?_append]
    have hnone : (post.reverse).find? (fun t' => decide (t'.1 = t.1)) = none := by
      rw [List.find?_eq_none]
      intro x hx
      simp only [decide_eq_true_eq]
      exact hlater x (List.mem_reverse.mp hx)
    rw [hnone]
    simp only [Option.none_or]
    rw [List.find?_cons_of_pos _ (by simp)]
    simp [stepEntry, hstep]
  · intro pre post t r hsplit hstep hlater
    rw [research_tool_stack_results, dictLookup_stackFold]
    have hrev : tools.reverse = post.reverse ++ t :: pre.reverse := by
      rw [hsplit]
      simp
    rw [hrev, List.find?_append]
    have hnone : (post.reverse).find? (fun t' => decide (t'.1 = t.1)) = none := by
      rw [List.find?_eq_none]
      intro x hx
      simp only [decide_eq_true_eq]
      exact hlater x (List.mem_reverse.mp hx)
    rw [hnone]
    simp only [Option.none_or]
    rw [List.find?_cons_of_pos _ (by simp)]
    simp [stepEntry, hstep]

/-- Witness for the amended C9: a three-tool stack whose middle tool
faults yields three entries, the middle one the fault entry with its
message and the others their results. -/
theorem stack_resilience_c9_witness :
    dictLookup "b".toList
      (research_tool_stack
        (fun n _ =>
          if n = "b".toList then Except.error "rate limited".toList
          else Except.ok ({ success := true } : ResultDict))
        [("a".toList, "t".toList), ("b".toList, "t".toList), ("c".toList, "t".toList)]
        "2023-01-01".toList "2024-01-01".toList 0).results
      = some (toolFaultEntry "rate limited".toList) ∧
    dictLookup "c".toList
      (research_tool_stack
        (fun n _ =>
          if n = "b".toList then Except.error "rate limited".toList
          else Except.ok ({ success := true } : ResultDict))
        [("a".toList, "t".toList), ("b".toList, "t".toList), ("c".toList, "t".toList)]
        "2023-01-01".toList "2024-01-01".toList 0).results
      = some { success := true } := by
  constructor
  · exact (stack_resilience_c9_amended
      (fun n _ =>
        if n = "b".toList then Except.error "rate limited".toList
        else Except.ok ({ success := true } : ResultDict))
      [("a".toList, "t".toList), ("b".toList, "t".toList), ("c".toList, "t".toList)]
      "2023-01-01".toList "2024-01-01".toList 0).2.1
      [("a".toList, "t".toList)] [("c".toList, "t".toList)]
      ("b".toList, "t".toList) "rate limited".toList
      (by decide) (by decide) (by decide)
  · exact (stack_resilience_c9_amended
      (fun n _ =>
        if n = "b".toList then Except.error "rate limited".toList
        else Except.ok ({ success := true } : ResultDict))
      [("a".toList, "t".toList), ("b".toList, "t".toList), ("c".toList, "t".toList)]
      "2023-01-01".toList "2024-01-01".toList 0).2.2
      [("a".toList, "t".toList), ("b".toList, "t".toList)] []
      ("c".toList, "t".toList) { success := true }
      (by decide) (by decide) (by decide)

theorem mem_dictInsert {m : List (Str × ResultDict)} {k : Str} {v : ResultDict} :
    ∀ q ∈ dictInsert m k v, q ∈ m ∨ q = (k, v) := by
  induction m with
  | nil =>
    intro q hq
    right
    simpa [dictInsert] using hq
  | cons p rest ih =>
    intro q hq
    simp only [dictInsert] at hq
    by_cases hp : p.1 = k
    · rw [if_pos hp] at hq
      rcases List.mem_cons.mp hq with h | h
      · right; exact h
      · left; exact List.mem_cons.mpr (Or.inr h)
    · rw [if_neg hp] at hq
      rcases List.mem_cons.mp hq with h | h
      · left; exact List.mem_cons.mpr (Or.inl h)
      · rcases ih q h with h' | h'
        · left; exact List.mem_cons.mpr (Or.inr h')
        · right; exact h'

theorem mem_stackFold (step : Str → Str → Except Str ResultDict) :
    ∀ (tools : List (Str × Str)) (acc : List (Str × ResultDict))
      (q : Str × ResultDict),
      q ∈ stackFold step tools acc →
      q ∈ acc ∨ ∃ t ∈ tools, t.1 = q.1 ∧ stepEntry step t = q.2 := by
  intro tools
  induction tools with
  | nil =>
    intro acc q hq
    left
    exact hq
  | cons t ts ih =>
    intro acc q hq
    rw [stackFold_cons] at hq
    rcases ih _ q hq with h | h
    · rcases mem_dictInsert q h with h' | h'
      · left; exact h'
      · right
        refine ⟨t, by simp, ?_, ?_⟩
        · rw [h']
        · rw [h']
    · rcases h with ⟨u, hu, h1, h2⟩
      right
      exact ⟨u, List.mem_cons.mpr (Or.inr hu), h1, h2⟩

/-- Counterexample to claim C4 as stated: a one-tool stack whose research
raises a fault with an empty message yields an aggregate entry with
success false, an empty error string, and no updates field at all. -/
theorem failure_shape_c4_counterexample :
    (research_tool_stack (fun _ _ => Except.error ([] : Str))
        [("a".toList, "t".toList)] "2023-01-01".toList "2024-01-01".toList 0).results
      = [("a".toList, { success := false, error := some ([] : Str) })] ∧
    ({ success := false, error := some ([] : Str) } : ResultDict).updates = none ∧
    ({ success := false, error := some ([] : Str) } : ResultDict).error
      = some ([] : Str) ∧
    (research_tool_stack (fun _ _ => Except.error ([] : Str))
        [("a".toList, "t".toList)] "2023-01-01".toList "2024-01-01".toList 0).failed
      = 1 :=
  ⟨by decide, by decide, by decide, by decide⟩

/-- Claim C4 as amended: every success=false result the orchestrators
construct themselves carries an error field holding the fault's message
(possibly the empty string) and an updates field that is the empty
sequence where present; the core JSON-decode-failure result and the
stack fault entries omit the updates field, and a success=false dict
passed through from the agent's own JSON is returned with only missing
required fields defaulted, so it may lack an error. -/
theorem failure_shape_c4_amended :
    (∀ (cap : Except Str Str) (jx : Str → JExtract) (tool_name : Str),
      (research_via_web_core cap jx tool_name).success = false →
      ((research_via_web_core cap jx tool_name).error ≠ none ∧
        ((research_via_web_core cap jx tool_name).updates = some [] ∨
          (research_via_web_core cap jx tool_name).updates = none)) ∨
      (∃ out d, cap = Except.ok out ∧ jx out = JExtract.dict d ∧
        d.success = some false ∧
        research_via_web_core cap jx tool_name = ensureRequiredFields tool_name d)) ∧
    (∀ (cap : Except Str Str) (fb : Str → List Update)
        (tool_name tool_type start_date end_date research_depth : Str)
        (now : Int),
      (research_via_web_root cap fb tool_name tool_type start_date end_date
          research_depth now).success = false →
      ∃ e, cap = Except.error e ∧
        research_via_web_root cap fb tool_name tool_type start_date end_date
            research_depth now
          = { success := false, error := some e, tool_name := some tool_name
            , updates := some [] }) ∧
    (∀ (step : Str → Str → Except Str ResultDict) (tools : List (Str × Str))
        (sd ed : Str) (now : Int) (kv : Str × ResultDict),
      kv ∈ (research_tool_stack step tools sd ed now).results →
      kv.2.success = false →
      (∃ t ∈ tools, t.1 = kv.1 ∧ step t.1 t.2 = Except.ok kv.2) ∨
      (∃ t ∈ tools, ∃ e, t.1 = kv.1 ∧ step t.1 t.2 = Except.error e ∧
        kv.2 = toolFaultEntry e ∧ kv.2.error = some e ∧ kv.2.updates = none)) := by
  refine ⟨?_, ?_, ?_⟩
  · intro cap jx tool_name h
    cases cap with
    | error e =>
      left
      exact ⟨by simp [research_via_web_core], Or.inl (by simp [research_via_web_core])⟩
    | ok out =>
      cases hjx : jx out with
      | noMatch =>
        left
        exact ⟨by simp [research_via_web_core, hjx, ensureRequiredFields],
          Or.inl (by simp [research_via_web_core, hjx, ensureRequiredFields])⟩
      | decodeErr m =>
        left
        exact ⟨by simp [research_via_web_core, hjx],
          Or.inr (by simp [research_via_web_core, hjx])⟩
      | nonDictFault m =>
        left
        exact ⟨by simp [research_via_web_core, hjx],
          Or.inl (by simp [research_via_web_core, hjx])⟩
      | dict d =>
        right
        refine ⟨out, d, rfl, hjx, ?_, by simp [research_via_web_core, hjx]⟩
        have h' : d.success.getD true = false := by
          simpa [research_via_web_core, hjx, ensureRequiredFields] using h
        cases hs : d.success with
        | none => rw [hs] at h'; simp at h'
        | some b =>
          rw [hs] at h'
          simp only [Option.getD_some] at h'
          rw [h']
  · intro cap fb tool_name tool_type start_date end_date research_depth now h
    cases cap with
    | ok text => simp [research_via_web_root] at h
    | error e => exact ⟨e, rfl, rfl⟩
  · intro step tools sd ed now kv hmem hsucc
    rw [research_tool_stack_results] at hmem
    rcases mem_stackFold step tools [] kv hmem with h | h
    · cases h
    · rcases h with ⟨t, ht, h1, h2⟩
      cases hstep : step t.1 t.2 with
      | ok r =>
        left
        have hr : r = kv.2 := by
          rw [← h2]
          simp [stepEntry, hstep]
        rw [hr] at hstep
        exact ⟨t, ht, h1, hstep⟩
      | error e =>
        right
        have hkv : kv.2 = toolFaultEntry e := by
          rw [← h2]
          simp [stepEntry, hstep]
        exact ⟨t, ht, e, h1, hstep, hkv,
          by rw [hkv]; simp [toolFaultEntry],
          by rw [hkv]; simp [toolFaultEntry]⟩

/-- Witness for the amended C4: a concrete timed-out capability gives the
wrapper failure with its message and an empty updates list. -/
theorem failure_shape_c4_witness :
    ((research_via_web_core (Except.error "timeout after 60s".toList)
        (fun _ => JExtract.noMatch) "acme".toList).error ≠ none ∧
      ((research_via_web_core (Except.error "timeout after 60s".toList)
          (fun _ => JExtract.noMatch) "acme".toList).updates = some [] ∨
        (research_via_web_core (Except.error "timeout after 60s".toList)
          (fun _ => JExtract.noMatch) "acme".toList).updates = none)) ∨
    (∃ out d, (Except.error "timeout after 60s".toList : Except Str Str)
        = Except.ok out ∧
      (fun (_ : Str) => JExtract.noMatch) out = JExtract.dict d ∧
      d.success = some false ∧
      research_via_web_core (Except.error "timeout after 60s".toList)
          (fun _ => JExtract.noMatch) "acme".toList
        = ensureRequiredFields "acme".toList d) :=
  failure_shape_c4_amended.1 (Except.error "timeout after 60s".toList)
    (fun _ => JExtract.noMatch) "acme".toList (by decide)

theorem length_filter_add_length_filter_not (p : ResultDict → Bool)
    (l : List ResultDict) :
    (l.filter p).length + (l.filter (fun x => !p x)).length = l.length := by
  induction l with
  | nil => rfl
  | cons x l ih =>
    by_cases h : p x <;> simp [List.filter_cons, h] <;> omega

theorem keys_dictInsert (m : List (Str × ResultDict)) (k : Str) (v : ResultDict) :
    (dictInsert m k v).map Prod.fst
      = if k ∈ m.map Prod.fst then m.map Prod.fst else m.map Prod.fst ++ [k] := by
  induction m with
  | nil => simp [dictInsert]
  | cons p rest ih =>
    simp only [dictInsert]
    by_cases hp : p.1 = k
    · rw [if_pos hp]
      rw [if_pos (by simp [hp.symm])]
      simp [hp]
    · rw [if_neg hp]
      simp only [List.map_cons, ih]
      by_cases hm : k ∈ rest.map Prod.fst
      · rw [if_pos hm, if_pos (by simp [hm])]
      · rw [if_neg hm, if_neg ?_]
        · simp
        · simp only [List.map_cons, List.mem_cons]
          rintro (h | h)
          · exact hp h.symm
          · exact hm h

theorem keys_stackFold (step : Str → Str → Except Str ResultDict) :
    ∀ (tools : List (Str × Str)) (acc : List (Str × ResultDict)),
      (stackFold step tools acc).map Prod.fst
        = keyFold (acc.map Prod.fst) (tools.map Prod.fst) := by
  intro tools
  induction tools with
  | nil => intro acc; rfl
  | cons t ts ih =>
    intro acc
    rw [stackFold_cons, ih, keys_dictInsert]
    simp [keyFold]

theorem keyFold_mem : ∀ (names ks : List Str) (x : Str),
    x ∈ keyFold ks names ↔ x ∈ ks ∨ x ∈ names := by
  intro names
  induction names with
  | nil => intro ks x; simp [keyFold]
  | cons n ns ih =>
    intro ks x
    have hstep : keyFold ks (n :: ns)
        = keyFold (if n ∈ ks then ks else ks ++ [n]) ns := by
      simp [keyFold]
    rw [hstep, ih]
    by_cases hn : n ∈ ks
    · rw [if_pos hn]
      constructor
      · rintro (h | h)
        · exact Or.inl h
        · exact Or.inr (by simp [h])
      · rintro (h | h)
        · exact Or.inl h
        · rcases List.mem_cons.mp h with h' | h'
          · exact Or.inl (h' ▸ hn)
          · exact Or.inr h'
    · rw [if_neg hn]
      constructor
      · rintro (h | h)
        · rcases List.mem_append.mp h with h' | h'
          · exact Or.inl h'
          · right
            simp only [List.mem_singleton] at h'
            simp [h']
        · exact Or.inr (by simp [h])
      · rintro (h | h)
        · exact Or.inl (List.mem_append.mpr (Or.inl h))
        · rcases List.mem_cons.mp h with h' | h'
          · exact Or.inl (List.mem_append.mpr (Or.inr (by simp [h'])))
          · exact Or.inr h'

theorem keyFold_nodup : ∀ (names ks : List Str), ks.Nodup →
    (keyFold ks names).Nodup := by
  intro names
  induction names with
  | nil => intro ks h; exact h
  | cons n ns ih =>
    intro ks h
    have hstep : keyFold ks (n :: ns)
        = keyFold (if n ∈ ks then ks else ks ++ [n]) ns := by
      simp [keyFold]
    rw [hstep]
    apply ih
    by_cases hn : n ∈ ks
    · rw [if_pos hn]; exact h
    · rw [if_neg hn, List.nodup_append]
      refine ⟨h, List.nodup_singleton n, ?_⟩
      intro a ha hb
      rw [List.mem_singleton] at hb
      subst hb
      exact hn ha

theorem keyFold_nil_card (names : List Str) :
    (keyFold [] names).length = names.toFinset.card := by
  have hnd : (keyFold [] names).Nodup := keyFold_nodup names [] List.nodup_nil
  have htf : (keyFold [] names).toFinset = names.toFinset := by
    ext x
    simp only [List.mem_toFinset]
    rw [keyFold_mem]
    simp
  calc (keyFold [] names).length
      = (keyFold [] names).toFinset.card := (List.toFinset_card_of_nodup hnd).symm
    _ = names.toFinset.card := by rw [htf]

theorem stack_counts_sum (step : Str → Str → Except Str ResultDict)
    (tools : List (Str × Str)) (sd ed : Str) (now : Int) :
    (research_tool_stack step tools sd ed now).successful
      + (research_tool_stack step tools sd ed now).failed
      = (tools.map Prod.fst).toFinset.card := by
  have hsum : (research_tool_stack step tools sd ed now).successful
      + (research_tool_stack step tools sd ed now).failed
      = (stackFold step tools []).length := by
    show (((stackFold step tools []).map Prod.snd).filter (fun r => r.success)).length
        + (((stackFold step tools []).map Prod.snd).filter (fun r => !r.success)).length
      = (stackFold step tools []).length
    rw [length_filter_add_length_filter_not]
    simp
  rw [hsum]
  have hlen : (stackFold step tools []).length
      = ((stackFold step tools []).map Prod.fst).length := by simp
  rw [hlen, keys_stackFold]
  simpa using keyFold_nil_card (tools.map Prod.fst)

/-- Claim C10: the stack aggregate's results mapping is keyed by tool
name, so successful + failed counts the distinct tool names: it equals
total_tools when the names are pairwise distinct and is strictly smaller
on a stack with a duplicated name, whose later result overwrites the
earlier. -/
theorem aggregate_count_c10 :
    (∀ (step : Str → Str → Except Str ResultDict) (tools : List (Str × Str))
        (sd ed : Str) (now : Int),
      (research_tool_stack step tools sd ed now).successful
        + (research_tool_stack step tools sd ed now).failed
        = (tools.map Prod.fst).toFinset.card) ∧
    (∀ (step : Str → Str → Except Str ResultDict) (tools : List (Str × Str))
        (sd ed : Str) (now : Int),
      (tools.map Prod.fst).Nodup →
      (research_tool_stack step tools sd ed now).successful
        + (research_tool_stack step tools sd ed now).failed
        = (research_tool_stack step tools sd ed now).total_tools) ∧
    ((research_tool_stack (fun _ _ => Except.ok ({ success := true } : ResultDict))
        [("a".toList, "t".toList), ("a".toList, "u".toList)]
        "2023-01-01".toList "2024-01-01".toList 0).successful
      + (research_tool_stack (fun _ _ => Except.ok ({ success := true } : ResultDict))
          [("a".toList, "t".toList), ("a".toList, "u".toList)]
          "2023-01-01".toList "2024-01-01".toList 0).failed = 1 ∧
    (research_tool_stack (fun _ _ => Except.ok ({ success := true } : ResultDict))
        [("a".toList, "t".toList), ("a".toList, "u".toList)]
        "2023-01-01".toList "2024-01-01".toList 0).total_tools = 2 ∧
    (research_tool_stack (fun _ _ => Except.ok ({ success := true } : ResultDict))
        [("a".toList, "t".toList), ("a".toList, "u".toList)]
        "2023-01-01".toList "2024-01-01".toList 0).results
      = [("a".toList, { success := true })]) := by
  refine ⟨stack_counts_sum, ?_, by decide, by decide, by decide⟩
  intro step tools sd ed now hnd
  rw [stack_counts_sum]
  show (tools.map Prod.fst).toFinset.card = tools.length
  rw [List.toFinset_card_of_nodup hnd]
  simp

/-- Witness for C10 on a concrete two-tool stack with distinct names:
successful + failed equals total_tools. -/
theorem aggregate_count_c10_witness :
    (research_tool_stack (fun _ _ => Except.ok ({ success := true } : ResultDict))
        [("a".toList, "t".toList), ("b".toList, "t".toList)]
        "2023-01-01".toList "2024-01-01".toList 0).successful
      + (research_tool_stack (fun _ _ => Except.ok ({ success := true } : ResultDict))
          [("a".toList, "t".toList), ("b".toList, "t".toList)]
          "2023-01-01".toList "2024-01-01".toList 0).failed
      = (research_tool_stack (fun _ _ => Except.ok ({ success := true } : ResultDict))
          [("a".toList, "t".toList), ("b".toList, "t".toList)]
          "2023-01-01".toList "2024-01-01".toList 0).total_tools :=
  aggregate_count_c10.2.1 (fun _ _ => Except.ok ({ success := true } : ResultDict))
    [("a".toList, "t".toList), ("b".toList, "t".toList)]
    "2023-01-01".toList "2024-01-01".toList 0 (by decide)
